import Mathlib

/-!
Verification development for the listener-orchestration layer of the
veneur telemetry service (file `networking.go`).

The Go source is shallowly embedded:

* `startStatsdUDP` and `startSSFUDP` are modelled by the list of socket
  construction requests issued by the worker goroutines they spawn
  (one list entry per spawned worker owning its own socket).
* The protocol-dispatch entry points `StartStatsd` and `StartSSF` are
  modelled as functions from the concrete address kind to the outcome
  (which sub-routine was dispatched, or a process-aborting panic).
* `startStatsdTCP` is modelled by the pair (reported security mode,
  whether the raw listener was wrapped in a TLS listener), which is all
  the TLS-relevant observable state of the routine.
* `startSSFUnix` is modelled as a function from an environment (which
  records the outcome of each fallible external call: lock acquisition,
  bind, chmod, and the sequence of accept results seen by the
  accept-relay goroutine) to the trace of resource events the routine
  performs, in program order.
* The softnet statistics parser (`parseSoftnet`, `parseSoftnetRecord`)
  is embedded directly as a pure function on the list of input lines;
  Go's `(value, error)` return pair is rendered as `value × Bool` where
  the boolean records whether an error was returned.
-/

set_option autoImplicit false

namespace Veneur

/-! ## Server configuration relevant to the UDP reader pools -/

/-- The fields of the Go `Server` struct consulted by the UDP listener
setup routines: `numReaders` and `RcvbufBytes`. Addresses are abstracted
as natural-number identifiers (the code never inspects them, it only
passes them through to the socket factory). -/
structure Server where
  numReaders : Nat
  rcvbufBytes : Nat
  deriving DecidableEq

/-- One call to the socket factory `NewSocket(addr, rcvbuf, reuse)`:
the address bound, the requested receive-buffer size, and whether
kernel port/address reuse was requested. -/
structure SocketRequest where
  addr : Nat
  rcvbuf : Nat
  reuse : Bool
  deriving DecidableEq

/-- Embeds `startStatsdUDP`: the loop `for i := 0; i < s.numReaders; i++`
spawns one goroutine per iteration, and each goroutine constructs its own
socket via `NewSocket(addr, s.RcvbufBytes, s.numReaders != 1)`. The model
returns the list of socket requests, one per spawned worker. -/
def startStatsdUDP (s : Server) (addr : Nat) : List SocketRequest :=
  (List.range s.numReaders).map fun _ =>
    { addr := addr, rcvbuf := s.rcvbufBytes, reuse := s.numReaders != 1 }

/-- Embeds `startSSFUDP`: a single socket is constructed in the caller via
`NewSocket(addr, s.RcvbufBytes, s.numReaders > 1)` and exactly one reader
goroutine is spawned for it, irrespective of `s.numReaders`. -/
def startSSFUDP (s : Server) (addr : Nat) : List SocketRequest :=
  [{ addr := addr, rcvbuf := s.rcvbufBytes, reuse := decide (s.numReaders > 1) }]

/-! ## Protocol dispatch -/

/-- The concrete dynamic type of the `net.Addr` handed to an intake entry
point: `*net.UDPAddr`, `*net.TCPAddr`, `*net.UnixAddr`, or any other
implementation of the interface. -/
inductive NetAddr
  | udp
  | tcp
  | unix
  | unknown
  deriving DecidableEq

/-- Outcome of an intake entry point: which listener-setup routine was
dispatched, or a panic. The Go functions return nothing, so there is no
error-value outcome at all: the only failure mode is the panic. -/
inductive StartOutcome
  | dispatchedUDP
  | dispatchedTCP
  | dispatchedUnix
  | panicked
  deriving DecidableEq

/-- Embeds the type switch of `StartStatsd`: UDP and TCP addresses are
dispatched, every other address kind panics. -/
def StartStatsd : NetAddr → StartOutcome
  | NetAddr.udp => StartOutcome.dispatchedUDP
  | NetAddr.tcp => StartOutcome.dispatchedTCP
  | _ => StartOutcome.panicked

/-- Embeds the type switch of `StartSSF`: UDP and Unix-domain addresses
are dispatched, every other address kind panics. -/
def StartSSF : NetAddr → StartOutcome
  | NetAddr.udp => StartOutcome.dispatchedUDP
  | NetAddr.unix => StartOutcome.dispatchedUnix
  | _ => StartOutcome.panicked

/-! ## TCP listener manager: TLS mode selection -/

/-- The Go `tls.ClientAuthType` enumeration. -/
inductive ClientAuthType
  | noClientCert
  | requestClientCert
  | requireAnyClientCert
  | verifyClientCertIfGiven
  | requireAndVerifyClientCert
  deriving DecidableEq

/-- The part of `tls.Config` consulted by `startStatsdTCP`. -/
structure TLSConfig where
  clientAuth : ClientAuthType
  deriving DecidableEq

/-- Embeds the TLS-mode selection of `startStatsdTCP`: `mode` starts as
`"unencrypted"`; when `s.tlsConfig != nil` the listener is wrapped via
`tls.NewListener` and the mode becomes `"authenticated"` when
`ClientAuth == tls.RequireAndVerifyClientCert`, else `"encrypted"`.
The result is (mode, listener-was-wrapped). -/
def startStatsdTCP (tlsConfig : Option TLSConfig) : String × Bool :=
  match tlsConfig with
  | none => ("unencrypted", false)
  | some cfg =>
    if cfg.clientAuth = ClientAuthType.requireAndVerifyClientCert then
      ("authenticated", true)
    else
      ("encrypted", true)

/-! ## Unix listener manager -/

/-- Resource events performed by `startSSFUnix`, in program order. -/
inductive UnixEvent
  | lockAcquired
  | staleRemoved
  | bound
  | permsSet
  | connDispatched
  | lockReleased
  | doneClosed
  | panicked
  | fatalExited
  deriving DecidableEq

/-- One result of `listener.AcceptUnix()` as seen by the accept-relay
goroutine: a connection, an error while the server's shutdown channel is
already closed, or an error while it is not. -/
inductive AcceptOutcome
  | conn
  | errShutdown
  | errFatal
  deriving DecidableEq

/-- The environment of one run of `startSSFUnix`: the outcome of every
fallible external call it makes. `addrIsUnix` is `addr.Network() == "unix"`;
`lockErr` and `lockHeld` are the two failure modes of `lock.TryLock()`;
`staleFileExists` says whether a file already exists at the socket path
(so `os.Remove` succeeds) or not (so it returns an error); `bindOk` and
`chmodOk` are the outcomes of `net.ListenUnix` and `os.Chmod`; and
`acceptOutcomes` is the sequence of results the accept loop observes. -/
structure UnixEnv where
  addrIsUnix : Bool
  lockErr : Bool
  lockHeld : Bool
  staleFileExists : Bool
  bindOk : Bool
  chmodOk : Bool
  acceptOutcomes : List AcceptOutcome
  deriving DecidableEq

/-- `os.Remove` returns an error exactly when no file exists at the path.
`startSSFUnix` discards this value (`_ = os.Remove(...)`). -/
def osRemoveError (fileExists : Bool) : Bool := !fileExists

/-- The events of the accept-relay goroutine of `startSSFUnix`. Each
accepted connection is forwarded to the dispatch goroutine, which spawns
a stream reader for it. On an accept error with the shutdown channel
closed the goroutine returns, running its deferred
`lock.Unlock(); close(done)`. On an accept error without shutdown it
calls `log.Fatal`, which exits the process without running defers.
If the outcome list is exhausted the goroutine is still blocked in
accept: no defer has run yet. -/
def relayRun : List AcceptOutcome → List UnixEvent
  | [] => []
  | AcceptOutcome.conn :: rest => UnixEvent.connDispatched :: relayRun rest
  | AcceptOutcome.errShutdown :: _ => [UnixEvent.lockReleased, UnixEvent.doneClosed]
  | AcceptOutcome.errFatal :: _ => [UnixEvent.fatalExited]

/-- Whether the accept-relay goroutine terminates by returning (and thus
runs its deferred unlock and channel close). -/
def relayReturns : List AcceptOutcome → Bool
  | [] => false
  | AcceptOutcome.conn :: rest => relayReturns rest
  | AcceptOutcome.errShutdown :: _ => true
  | AcceptOutcome.errFatal :: _ => false

/-- Embeds `startSSFUnix` as the trace of resource events of one run.
Program order follows the source: non-unix address panics; `TryLock`
error or already-held lock panics; after acquisition the stale socket
file is removed with the error discarded; bind failure panics (without
any unlock: the goroutine holding the deferred unlock has not been
spawned); chmod failure likewise panics; otherwise the accept-relay
goroutine runs. -/
def startSSFUnix (env : UnixEnv) : List UnixEvent :=
  if env.addrIsUnix = false then [UnixEvent.panicked]
  else if env.lockErr = true then [UnixEvent.panicked]
  else if env.lockHeld = true then [UnixEvent.panicked]
  else
    let _ := osRemoveError env.staleFileExists
    UnixEvent.lockAcquired ::
      UnixEvent.staleRemoved ::
        if env.bindOk = false then [UnixEvent.panicked]
        else
          UnixEvent.bound ::
            if env.chmodOk = false then [UnixEvent.panicked]
            else UnixEvent.permsSet :: relayRun env.acceptOutcomes

/-! ## Softnet statistics parser -/

/-- The Go struct `SoftnetDataProcessor`: the six named 64-bit counters
of one per-CPU record. -/
structure SoftnetDataProcessor where
  Processed : Int
  Dropped : Int
  TimeSqueeze : Int
  CPUCollision : Int
  ReceivedRPS : Int
  FlowLimitCount : Int
  deriving DecidableEq

/-- The Go struct `SoftnetData`: one record per processor. -/
structure SoftnetData where
  Processors : List SoftnetDataProcessor
  deriving DecidableEq

/-- The numeric value of one hexadecimal digit, accepting both cases,
as in Go's `strconv.ParseUint` with base 16. -/
def hexDigitVal (c : Char) : Option Nat :=
  if '0' ≤ c ∧ c ≤ '9' then some (c.toNat - Char.toNat '0')
  else if 'a' ≤ c ∧ c ≤ 'f' then some (c.toNat - Char.toNat 'a' + 10)
  else if 'A' ≤ c ∧ c ≤ 'F' then some (c.toNat - Char.toNat 'A' + 10)
  else none

/-- Accumulates the value of a hexadecimal digit string, failing on any
non-digit, as Go's `strconv.ParseUint` does for an explicit base 16
(no `0x` prefix and no underscores are accepted in that case). -/
def parseHexDigits : Nat → List Char → Option Nat
  | acc, [] => some acc
  | acc, c :: rest =>
    match hexDigitVal c with
    | none => none
    | some d => parseHexDigits (acc * 16 + d) rest

/-- Embeds `strconv.ParseInt(c, 16, 64)`: an optional sign followed by a
non-empty hexadecimal digit string; any value outside the `int64` range
is an error (Go reports `ErrRange`, which `parseSoftnetRecord` treats
like any other error). -/
def parseInt64Hex (cs : List Char) : Option Int :=
  match cs with
  | [] => none
  | _ =>
    let signDigits : Bool × List Char :=
      match cs with
      | '-' :: rest => (true, rest)
      | '+' :: rest => (false, rest)
      | _ => (false, cs)
    match signDigits.2 with
    | [] => none
    | _ =>
      match parseHexDigits 0 signDigits.2 with
      | none => none
      | some n =>
        if signDigits.1 then
          if n ≤ 2 ^ 63 then some (-(n : Int)) else none
        else
          if n < 2 ^ 63 then some (n : Int) else none

/-- Embeds `parseSoftnetRecord`: parses every field of one row as a
base-16 `int64`, returning an error as soon as one field fails. -/
def parseSoftnetRecord (processorRecord : List (List Char)) : Option (List Int) :=
  match processorRecord with
  | [] => some []
  | c :: rest =>
    match parseInt64Hex c with
    | none => none
    | some n =>
      match parseSoftnetRecord rest with
      | none => none
      | some ns => some (n :: ns)

/-- Splits one input line into fields at each space character, as the
`encoding/csv` reader configured with `Comma = ' '` does for the plain
(unquoted) fields that appear in `/proc/net/softnet_stat`. -/
def fieldsOfLine : List Char → List (List Char)
  | [] => [[]]
  | c :: rest =>
    if c.toNat == 32 then [] :: fieldsOfLine rest
    else
      match fieldsOfLine rest with
      | [] => [[c]]
      | f :: fs => (c :: f) :: fs

/-- Embeds `csv.Reader.ReadAll` as configured by `parseSoftnet`
(`Comma = ' '`, `FieldsPerRecord = 11`): blank lines are skipped, every
remaining line is split into fields, and any record that does not have
exactly 11 fields is an error that discards all records. -/
def readAllRecords (lines : List String) : Option (List (List (List Char))) :=
  let records := (lines.filter fun l => l != "").map fun l => fieldsOfLine l.toList
  if records.all fun r => r.length == 11 then some records else none

/-- The record constructed by the loop body of `parseSoftnet` from the
parsed fields of one row: indices 0, 1, 2, 8, 9 and 10; the five
reserved fields at indices 3-7 are discarded. -/
def softnetProcessorOf (fields : List Int) : SoftnetDataProcessor :=
  { Processed := fields.getD 0 0
    Dropped := fields.getD 1 0
    TimeSqueeze := fields.getD 2 0
    CPUCollision := fields.getD 8 0
    ReceivedRPS := fields.getD 9 0
    FlowLimitCount := fields.getD 10 0 }

/-- The record-building loop of `parseSoftnet`: parses each record via
`parseSoftnetRecord` and builds one `SoftnetDataProcessor` per record,
returning an error (and no records) as soon as one record fails. -/
def softnetProcessors : List (List (List Char)) → Option (List SoftnetDataProcessor)
  | [] => some []
  | r :: rs =>
    match parseSoftnetRecord r with
    | none => none
    | some fields =>
      match softnetProcessors rs with
      | none => none
      | some rest => some (softnetProcessorOf fields :: rest)

/-- Embeds `parseSoftnet`: reads all records (11 fields each), then
builds one structured record per row. Go's `(SoftnetData, error)` return
is rendered as a pair whose boolean is `true` exactly when an error is
returned; on error the accompanying report is the zero value
`SoftnetData{}`, whose record list is empty. -/
def parseSoftnet (lines : List String) : SoftnetData × Bool :=
  match readAllRecords lines with
  | none => ({ Processors := [] }, true)
  | some records =>
    match softnetProcessors records with
    | none => ({ Processors := [] }, true)
    | some ps => ({ Processors := ps }, false)

/-! ## Helper lemmas -/

theorem relayRun_of_returns (outs : List AcceptOutcome) (h : relayReturns outs = true) :
    ∃ pre, relayRun outs = pre ++ [UnixEvent.lockReleased, UnixEvent.doneClosed] ∧
      ∀ e ∈ pre, e = UnixEvent.connDispatched := by
  induction outs with
  | nil => simp [relayReturns] at h
  | cons o rest ih =>
    cases o with
    | conn =>
      rw [relayReturns] at h
      obtain ⟨pre, hpre, hall⟩ := ih h
      refine ⟨UnixEvent.connDispatched :: pre, ?_, ?_⟩
      · rw [relayRun, hpre]
        rfl
      · intro e he
        rcases List.mem_cons.mp he with h1 | h1
        · exact h1
        · exact hall e h1
    | errShutdown =>
      exact ⟨[], rfl, by intro e he; cases he⟩
    | errFatal => simp [relayReturns] at h

theorem startSSFUnix_run (env : UnixEnv) (hnet : env.addrIsUnix = true)
    (hle : env.lockErr = false) (hlh : env.lockHeld = false)
    (hbind : env.bindOk = true) (hchmod : env.chmodOk = true) :
    startSSFUnix env = UnixEvent.lockAcquired :: UnixEvent.staleRemoved ::
      UnixEvent.bound :: UnixEvent.permsSet :: relayRun env.acceptOutcomes := by
  simp [startSSFUnix, hnet, hle, hlh, hbind, hchmod]

theorem startSSFUnix_run_bindFail (env : UnixEnv) (hnet : env.addrIsUnix = true)
    (hle : env.lockErr = false) (hlh : env.lockHeld = false)
    (hbind : env.bindOk = false) :
    startSSFUnix env =
      [UnixEvent.lockAcquired, UnixEvent.staleRemoved, UnixEvent.panicked] := by
  simp [startSSFUnix, hnet, hle, hlh, hbind]

theorem startSSFUnix_run_chmodFail (env : UnixEnv) (hnet : env.addrIsUnix = true)
    (hle : env.lockErr = false) (hlh : env.lockHeld = false)
    (hbind : env.bindOk = true) (hchmod : env.chmodOk = false) :
    startSSFUnix env =
      [UnixEvent.lockAcquired, UnixEvent.staleRemoved, UnixEvent.bound,
        UnixEvent.panicked] := by
  simp [startSSFUnix, hnet, hle, hlh, hbind, hchmod]

theorem not_mem_trace_prefix (pre : List UnixEvent)
    (hall : ∀ e ∈ pre, e = UnixEvent.connDispatched) (x : UnixEvent)
    (hx1 : x ≠ UnixEvent.lockAcquired) (hx2 : x ≠ UnixEvent.staleRemoved)
    (hx3 : x ≠ UnixEvent.bound) (hx4 : x ≠ UnixEvent.permsSet)
    (hx5 : x ≠ UnixEvent.connDispatched) :
    x ∉ UnixEvent.lockAcquired :: UnixEvent.staleRemoved :: UnixEvent.bound ::
      UnixEvent.permsSet :: pre := by
  intro hm
  rcases List.mem_cons.mp hm with h | hm
  · exact hx1 h
  rcases List.mem_cons.mp hm with h | hm
  · exact hx2 h
  rcases List.mem_cons.mp hm with h | hm
  · exact hx3 h
  rcases List.mem_cons.mp hm with h | hm
  · exact hx4 h
  exact hx5 (hall x hm)

theorem softnetProcessors_of_all_some (rs : List (List (List Char)))
    (h : ∀ r ∈ rs, parseSoftnetRecord r ≠ none) :
    softnetProcessors rs =
      some (rs.map fun r => softnetProcessorOf ((parseSoftnetRecord r).getD [])) := by
  induction rs with
  | nil => rfl
  | cons r rest ih =>
    obtain ⟨fs, hfs⟩ := Option.ne_none_iff_exists'.mp (h r (List.mem_cons_self r rest))
    rw [List.map_cons]
    simp only [softnetProcessors, hfs]
    rw [ih fun x hx => h x (List.mem_cons_of_mem r hx)]
    simp [hfs]

theorem softnetProcessors_of_mem_none (rs : List (List (List Char)))
    (r : List (List Char)) (hr : r ∈ rs) (hn : parseSoftnetRecord r = none) :
    softnetProcessors rs = none := by
  induction rs with
  | nil => cases hr
  | cons a rest ih =>
    rcases List.mem_cons.mp hr with h1 | h1
    · subst h1
      simp [softnetProcessors, hn]
    · simp only [softnetProcessors]
      rw [ih h1]
      cases parseSoftnetRecord a <;> rfl

theorem readAllRecords_of_wellformed (lines : List String)
    (hne : ∀ l ∈ lines, l ≠ "")
    (hlen : ∀ l ∈ lines, (fieldsOfLine l.toList).length = 11) :
    readAllRecords lines = some (lines.map fun l => fieldsOfLine l.toList) := by
  have hfilter : (lines.filter fun l => l != "") = lines := by
    rw [List.filter_eq_self]
    intro a ha
    simpa using hne a ha
  have hall : ((lines.map fun l => fieldsOfLine l.toList).all
      fun r => r.length == 11) = true := by
    rw [List.all_eq_true]
    intro r hr
    obtain ⟨l, hl, rfl⟩ := List.mem_map.mp hr
    simpa using hlen l hl
  simp [readAllRecords, hfilter, hall]
  intro x hx
  exact hlen x hx

/-! ## Claim theorems -/

/-- Claim C1 (amended): after successful acquisition of the exclusive file
lock, the lock is released exactly once when the accept-relay task
terminates by returning (the normal shutdown path); on the failure paths
where binding the Unix-domain listener fails or setting socket-path
permissions fails, the routine panics without releasing the lock (zero
releases occur in the code on those paths). -/
theorem startSSFUnix_lockRelease (env : UnixEnv) (hnet : env.addrIsUnix = true)
    (hle : env.lockErr = false) (hlh : env.lockHeld = false) :
    (env.bindOk = true → env.chmodOk = true → relayReturns env.acceptOutcomes = true →
      (startSSFUnix env).count UnixEvent.lockReleased = 1) ∧
    (env.bindOk = false →
      UnixEvent.panicked ∈ startSSFUnix env ∧
      (startSSFUnix env).count UnixEvent.lockReleased = 0) ∧
    (env.bindOk = true → env.chmodOk = false →
      UnixEvent.panicked ∈ startSSFUnix env ∧
      (startSSFUnix env).count UnixEvent.lockReleased = 0) := by
  refine ⟨fun hbind hchmod hret => ?_, fun hbind => ?_, fun hbind hchmod => ?_⟩
  · obtain ⟨pre, hpre, hall⟩ := relayRun_of_returns env.acceptOutcomes hret
    have hnotin : UnixEvent.lockReleased ∉
        UnixEvent.lockAcquired :: UnixEvent.staleRemoved :: UnixEvent.bound ::
          UnixEvent.permsSet :: pre :=
      not_mem_trace_prefix pre hall UnixEvent.lockReleased (by decide) (by decide)
        (by decide) (by decide) (by decide)
    have htrace : startSSFUnix env =
        (UnixEvent.lockAcquired :: UnixEvent.staleRemoved :: UnixEvent.bound ::
          UnixEvent.permsSet :: pre) ++
          [UnixEvent.lockReleased, UnixEvent.doneClosed] := by
      rw [startSSFUnix_run env hnet hle hlh hbind hchmod, hpre]
      rfl
    rw [htrace, List.count_append, List.count_eq_zero.mpr hnotin]
    decide
  · rw [startSSFUnix_run_bindFail env hnet hle hlh hbind]
    decide
  · rw [startSSFUnix_run_chmodFail env hnet hle hlh hbind hchmod]
    decide

/-- Witness for C1 at a concrete run that shuts down cleanly after one
accepted connection: the lock is released exactly once. -/
theorem startSSFUnix_lockRelease_witness :
    (startSSFUnix { addrIsUnix := true, lockErr := false, lockHeld := false,
                    staleFileExists := false, bindOk := true, chmodOk := true,
                    acceptOutcomes := [AcceptOutcome.conn, AcceptOutcome.errShutdown] }).count
      UnixEvent.lockReleased = 1 :=
  (startSSFUnix_lockRelease
      { addrIsUnix := true, lockErr := false, lockHeld := false,
        staleFileExists := false, bindOk := true, chmodOk := true,
        acceptOutcomes := [AcceptOutcome.conn, AcceptOutcome.errShutdown] }
      rfl rfl rfl).1 rfl rfl rfl

/-- Counterexample to C1 as stated: in a run whose Unix-domain bind fails
after the exclusive lock was successfully acquired, the routine panics and
the lock is never released (zero releases, not one). -/
theorem startSSFUnix_bindFailure_noRelease :
    UnixEvent.lockAcquired ∈ startSSFUnix
        { addrIsUnix := true, lockErr := false, lockHeld := false,
          staleFileExists := true, bindOk := false, chmodOk := true,
          acceptOutcomes := [] } ∧
    UnixEvent.panicked ∈ startSSFUnix
        { addrIsUnix := true, lockErr := false, lockHeld := false,
          staleFileExists := true, bindOk := false, chmodOk := true,
          acceptOutcomes := [] } ∧
    ¬(startSSFUnix
        { addrIsUnix := true, lockErr := false, lockHeld := false,
          staleFileExists := true, bindOk := false, chmodOk := true,
          acceptOutcomes := [] }).count UnixEvent.lockReleased = 1 := by
  decide

/-- Claim C2: for every UDP intake configuration with worker count at
least 1, each worker socket of the statsd metrics intake has kernel
port/address reuse enabled exactly when the worker count exceeds 1, and
the same derivation governs the SSF trace-intake socket. -/
theorem udpReuse_iff_multipleReaders (s : Server) (addr : Nat)
    (h : 1 ≤ s.numReaders) :
    (∀ w ∈ startStatsdUDP s addr, (w.reuse = true ↔ 1 < s.numReaders)) ∧
    (∀ w ∈ startSSFUDP s addr, (w.reuse = true ↔ 1 < s.numReaders)) := by
  constructor
  · intro w hw
    simp only [startStatsdUDP, List.mem_map] at hw
    obtain ⟨i, _, rfl⟩ := hw
    simp only [bne_iff_ne, ne_eq]
    omega
  · intro w hw
    simp only [startSSFUDP, List.mem_singleton] at hw
    subst hw
    simp

/-- Witness for C2 at a two-reader configuration: the (unique) socket
request of each intake has reuse enabled, matching 1 < 2. -/
theorem udpReuse_iff_multipleReaders_witness :
    (({ addr := 9, rcvbuf := 5, reuse := true } : SocketRequest).reuse = true ↔
      1 < ({ numReaders := 2, rcvbufBytes := 5 } : Server).numReaders) :=
  (udpReuse_iff_multipleReaders { numReaders := 2, rcvbufBytes := 5 } 9
      (by decide)).1 { addr := 9, rcvbuf := 5, reuse := true } (by decide)

/-- Claim C3 (amended): the statsd metrics intake spawns exactly
`numReaders` worker tasks, each constructing its own socket bound to the
given address; the SSF trace intake constructs exactly one socket bound
to the given address (read by a single task), regardless of the
configured worker count. -/
theorem udpWorkerCounts (s : Server) (addr : Nat) :
    (startStatsdUDP s addr).length = s.numReaders ∧
    (∀ w ∈ startStatsdUDP s addr, w.addr = addr ∧ w.rcvbuf = s.rcvbufBytes) ∧
    (startSSFUDP s addr).length = 1 ∧
    (∀ w ∈ startSSFUDP s addr, w.addr = addr ∧ w.rcvbuf = s.rcvbufBytes) := by
  refine ⟨?_, ?_, rfl, ?_⟩
  · simp [startStatsdUDP]
  · intro w hw
    simp only [startStatsdUDP, List.mem_map] at hw
    obtain ⟨i, _, rfl⟩ := hw
    exact ⟨rfl, rfl⟩
  · intro w hw
    simp only [startSSFUDP, List.mem_singleton] at hw
    subst hw
    exact ⟨rfl, rfl⟩

/-- Witness for C3 (amended) at a three-reader configuration. -/
theorem udpWorkerCounts_witness :
    (startStatsdUDP { numReaders := 3, rcvbufBytes := 4 } 8).length = 3 ∧
    (startSSFUDP { numReaders := 3, rcvbufBytes := 4 } 8).length = 1 :=
  ⟨(udpWorkerCounts { numReaders := 3, rcvbufBytes := 4 } 8).1,
    (udpWorkerCounts { numReaders := 3, rcvbufBytes := 4 } 8).2.2.1⟩

/-- Counterexample to C3 as stated: with two configured readers the SSF
trace intake constructs a single socket read by a single task, not two. -/
theorem startSSFUDP_workerCount_counterexample :
    (startSSFUDP { numReaders := 2, rcvbufBytes := 0 } 3).length = 1 ∧
    ¬(startSSFUDP { numReaders := 2, rcvbufBytes := 0 } 3).length = 2 := by
  decide

/-- Claim C4: on every run of the Unix listener manager in which the
accept-relay task terminates by returning, the completion channel is
closed exactly once, and only after the exclusive lock has been released:
the trace is a prefix containing neither event, followed by the lock
release and then the channel close. -/
theorem startSSFUnix_doneSignal (env : UnixEnv) (hnet : env.addrIsUnix = true)
    (hle : env.lockErr = false) (hlh : env.lockHeld = false)
    (hbind : env.bindOk = true) (hchmod : env.chmodOk = true)
    (hret : relayReturns env.acceptOutcomes = true) :
    (startSSFUnix env).count UnixEvent.doneClosed = 1 ∧
    ∃ pre, startSSFUnix env = pre ++ [UnixEvent.lockReleased, UnixEvent.doneClosed] ∧
      UnixEvent.doneClosed ∉ pre ∧ UnixEvent.lockReleased ∉ pre := by
  obtain ⟨pre, hpre, hall⟩ := relayRun_of_returns env.acceptOutcomes hret
  have htrace : startSSFUnix env =
      (UnixEvent.lockAcquired :: UnixEvent.staleRemoved :: UnixEvent.bound ::
        UnixEvent.permsSet :: pre) ++
        [UnixEvent.lockReleased, UnixEvent.doneClosed] := by
    rw [startSSFUnix_run env hnet hle hlh hbind hchmod, hpre]
    rfl
  have hnotdone : UnixEvent.doneClosed ∉
      UnixEvent.lockAcquired :: UnixEvent.staleRemoved :: UnixEvent.bound ::
        UnixEvent.permsSet :: pre :=
    not_mem_trace_prefix pre hall UnixEvent.doneClosed (by decide) (by decide)
      (by decide) (by decide) (by decide)
  have hnotrel : UnixEvent.lockReleased ∉
      UnixEvent.lockAcquired :: UnixEvent.staleRemoved :: UnixEvent.bound ::
        UnixEvent.permsSet :: pre :=
    not_mem_trace_prefix pre hall UnixEvent.lockReleased (by decide) (by decide)
      (by decide) (by decide) (by decide)
  constructor
  · rw [htrace, List.count_append, List.count_eq_zero.mpr hnotdone]
    decide
  · exact ⟨_, htrace, hnotdone, hnotrel⟩

/-- Witness for C4 at a concrete run that accepts one connection and then
shuts down: the completion channel is closed exactly once. -/
theorem startSSFUnix_doneSignal_witness :
    (startSSFUnix { addrIsUnix := true, lockErr := false, lockHeld := false,
                    staleFileExists := false, bindOk := true, chmodOk := true,
                    acceptOutcomes := [AcceptOutcome.conn,
                      AcceptOutcome.errShutdown] }).count UnixEvent.doneClosed = 1 :=
  (startSSFUnix_doneSignal
      { addrIsUnix := true, lockErr := false, lockHeld := false,
        staleFileExists := false, bindOk := true, chmodOk := true,
        acceptOutcomes := [AcceptOutcome.conn, AcceptOutcome.errShutdown] }
      rfl rfl rfl rfl rfl rfl).1

/-- Claim C5: an address of a transport kind unsupported by an intake
entry point (neither UDP nor TCP for `StartStatsd`; neither UDP nor
Unix-domain for `StartSSF`) makes that entry point panic; the outcome
type mirrors the Go functions, which return no error value at all. -/
theorem startDispatch_unsupported_panics (a : NetAddr) :
    (a ≠ NetAddr.udp → a ≠ NetAddr.tcp → StartStatsd a = StartOutcome.panicked) ∧
    (a ≠ NetAddr.udp → a ≠ NetAddr.unix → StartSSF a = StartOutcome.panicked) := by
  cases a <;>
    exact ⟨fun h1 h2 => by first | rfl | exact absurd rfl h1 | exact absurd rfl h2,
      fun h1 h2 => by first | rfl | exact absurd rfl h1 | exact absurd rfl h2⟩

/-- Witness for C5 at a concrete unsupported address kind. -/
theorem startDispatch_unsupported_panics_witness :
    StartStatsd NetAddr.unknown = StartOutcome.panicked ∧
    StartSSF NetAddr.unknown = StartOutcome.panicked :=
  ⟨(startDispatch_unsupported_panics NetAddr.unknown).1 (by decide) (by decide),
    (startDispatch_unsupported_panics NetAddr.unknown).2 (by decide) (by decide)⟩

/-- Claim C6: the reported TCP security mode is "unencrypted" exactly when
no TLS configuration is present, "authenticated" exactly when one is
present that requires and verifies a client certificate, and "encrypted"
exactly when one is present that does not; in the latter two cases (and
only then) the raw listener is wrapped in a TLS listener. -/
theorem startStatsdTCP_mode (c : TLSConfig) :
    (startStatsdTCP none).1 = "unencrypted" ∧
    (startStatsdTCP none).2 = false ∧
    ¬(startStatsdTCP none).1 = "authenticated" ∧
    ¬(startStatsdTCP none).1 = "encrypted" ∧
    ¬(startStatsdTCP (some c)).1 = "unencrypted" ∧
    ((startStatsdTCP (some c)).1 = "authenticated" ↔
      c.clientAuth = ClientAuthType.requireAndVerifyClientCert) ∧
    ((startStatsdTCP (some c)).1 = "encrypted" ↔
      ¬c.clientAuth = ClientAuthType.requireAndVerifyClientCert) ∧
    (startStatsdTCP (some c)).2 = true := by
  obtain ⟨ca⟩ := c
  cases ca <;> decide

/-- Witness for C6: with a configuration requiring and verifying a client
certificate, the reported mode is "authenticated". -/
theorem startStatsdTCP_mode_witness :
    (startStatsdTCP
        (some { clientAuth := ClientAuthType.requireAndVerifyClientCert })).1 =
      "authenticated" :=
  ((startStatsdTCP_mode
      { clientAuth := ClientAuthType.requireAndVerifyClientCert }).2.2.2.2.2.1).mpr rfl

/-- Claim C7: after acquiring the lock, the Unix listener manager removes
any pre-existing file at the socket path before binding, discarding the
result of the removal: the run is identical whether or not such a file
existed (so a failed removal of a non-existent file is not reported as an
error), and when binding succeeds the listener is bound in either case. -/
theorem startSSFUnix_staleRemoval (env : UnixEnv) (hnet : env.addrIsUnix = true)
    (hle : env.lockErr = false) (hlh : env.lockHeld = false) :
    (∃ rest, startSSFUnix env =
      UnixEvent.lockAcquired :: UnixEvent.staleRemoved :: rest) ∧
    startSSFUnix { env with staleFileExists := true } =
      startSSFUnix { env with staleFileExists := false } ∧
    (env.bindOk = true → UnixEvent.bound ∈ startSSFUnix env) := by
  refine ⟨?_, ?_, ?_⟩
  · refine ⟨if env.bindOk = false then [UnixEvent.panicked]
      else UnixEvent.bound ::
        if env.chmodOk = false then [UnixEvent.panicked]
        else UnixEvent.permsSet :: relayRun env.acceptOutcomes, ?_⟩
    simp [startSSFUnix, hnet, hle, hlh]
  · cases env
    rfl
  · intro hbind
    by_cases hchmod : env.chmodOk = true
    · rw [startSSFUnix_run env hnet hle hlh hbind hchmod]
      simp
    · rw [startSSFUnix_run_chmodFail env hnet hle hlh hbind
        (by simpa using hchmod)]
      decide

/-- Witness for C7: a concrete run with a stale socket file present binds
its listener successfully. -/
theorem startSSFUnix_staleRemoval_witness :
    UnixEvent.bound ∈ startSSFUnix
      { addrIsUnix := true, lockErr := false, lockHeld := false,
        staleFileExists := true, bindOk := true, chmodOk := true,
        acceptOutcomes := [AcceptOutcome.errShutdown] } :=
  (startSSFUnix_staleRemoval
      { addrIsUnix := true, lockErr := false, lockHeld := false,
        staleFileExists := true, bindOk := true, chmodOk := true,
        acceptOutcomes := [AcceptOutcome.errShutdown] }
      rfl rfl rfl).2.2 rfl

/-- Claim C8: on well-formed input, where every row is exactly 11
space-delimited base-16 integer fields, the parser succeeds and returns
one structured record per row, in input order, built from the fields at
indices 0, 1, 2, 8, 9, 10 (via `softnetProcessorOf`, which discards the
five reserved fields); in particular the single row
"1 2 3 0 0 0 0 0 4 5 6" yields the record with processed 1, dropped 2,
timeSqueeze 3, cpuCollision 4, receivedRPS 5 and flowLimitCount 6. -/
theorem parseSoftnet_wellformed (lines : List String)
    (hne : ∀ l ∈ lines, l ≠ "")
    (hlen : ∀ l ∈ lines, (fieldsOfLine l.toList).length = 11)
    (hp : ∀ l ∈ lines, parseSoftnetRecord (fieldsOfLine l.toList) ≠ none) :
    parseSoftnet lines =
      ({ Processors := lines.map fun l =>
          softnetProcessorOf ((parseSoftnetRecord (fieldsOfLine l.toList)).getD []) },
        false) ∧
    parseSoftnet ["1 2 3 0 0 0 0 0 4 5 6"] =
      ({ Processors := [{ Processed := 1, Dropped := 2, TimeSqueeze := 3,
                          CPUCollision := 4, ReceivedRPS := 5,
                          FlowLimitCount := 6 }] },
        false) := by
  constructor
  · have hrecords := readAllRecords_of_wellformed lines hne hlen
    have hsp := softnetProcessors_of_all_some
      (lines.map fun l => fieldsOfLine l.toList)
      (by
        intro r hr
        obtain ⟨l, hl, rfl⟩ := List.mem_map.mp hr
        exact hp l hl)
    simp only [parseSoftnet, hrecords, hsp, List.map_map]
    rfl
  · decide

/-- Witness for C8 at the single concrete well-formed row from the spec. -/
theorem parseSoftnet_wellformed_witness :
    parseSoftnet ["1 2 3 0 0 0 0 0 4 5 6"] =
      ({ Processors := [{ Processed := 1, Dropped := 2, TimeSqueeze := 3,
                          CPUCollision := 4, ReceivedRPS := 5,
                          FlowLimitCount := 6 }] },
        false) :=
  (parseSoftnet_wellformed ["1 2 3 0 0 0 0 0 4 5 6"]
      (by decide) (by decide) (by decide)).2

/-- Claim C9: an input containing a (non-blank) row that does not have
exactly 11 fields, or a row with a field that fails base-16 integer
decoding, yields an error together with the empty report: no records from
preceding rows are returned. -/
theorem parseSoftnet_badInput (lines : List String)
    (h : ∃ l, l ∈ lines ∧ l ≠ "" ∧
      (¬(fieldsOfLine l.toList).length = 11 ∨
        parseSoftnetRecord (fieldsOfLine l.toList) = none)) :
    parseSoftnet lines = ({ Processors := [] }, true) := by
  obtain ⟨l, hl, hlne, hbad⟩ := h
  have hlf : l ∈ lines.filter fun x => x != "" :=
    List.mem_filter.mpr ⟨hl, by simpa using hlne⟩
  by_cases hall : (((lines.filter fun x => x != "").map
      fun x => fieldsOfLine x.toList).all fun r => r.length == 11) = true
  · have hlen11 : (fieldsOfLine l.toList).length = 11 := by
      have := List.all_eq_true.mp hall _
        (List.mem_map_of_mem (fun x => fieldsOfLine x.toList) hlf)
      simpa using this
    rcases hbad with hb | hb
    · exact absurd hlen11 hb
    · have hnone := softnetProcessors_of_mem_none _ _
        (List.mem_map_of_mem (fun x => fieldsOfLine x.toList) hlf) hb
      have hrecords : readAllRecords lines =
          some ((lines.filter fun x => x != "").map fun x => fieldsOfLine x.toList) := by
        simp only [readAllRecords]
        rw [if_pos hall]
      simp only [parseSoftnet, hrecords, hnone]
  · simp only [parseSoftnet, readAllRecords]
    rw [if_neg hall]

/-- Witness for C9: a row with only three fields yields an error and an
empty report. -/
theorem parseSoftnet_badInput_witness :
    parseSoftnet ["1 2 3"] = ({ Processors := [] }, true) :=
  parseSoftnet_badInput ["1 2 3"]
    ⟨"1 2 3", by decide, by decide, Or.inl (by decide)⟩

/-- Claim C10: on empty input (zero rows) the parser succeeds, returning
no error and a report with an empty per-processor record sequence. -/
theorem parseSoftnet_empty : parseSoftnet [] = ({ Processors := [] }, false) := rfl

end Veneur
